import Mathlib

/-!
Shallow embedding of the indicator-observation query and aggregation engine of
the wa_plus backend (`src/services/data_service.py`: `DataService.get_timeseries_data`
and `DataService.get_summary_data`, plus the thin route handler
`src/api/v1/endpoints/timeseries.py:get_timeseries_data_points`).

SQL tables become lists of rows; SQLAlchemy query construction becomes explicit
join/filter/group/sort pipelines with SQL NULL semantics made explicit through
`Option`. `DateTime` is modelled at day granularity (the only operations the
engine performs on timestamps are comparison, inclusive `between`, and
`date_trunc` to month or year starts). `Float` numeric values are modelled as
`Rat`; every value appearing in the claims is exact in both representations.
-/

/-- A calendar timestamp at day granularity, ordered lexicographically.
Models the `timestamp` column (`DateTime`): the engine only compares
timestamps and truncates them to month or year starts. -/
structure Timestamp where
  year : Int
  month : Nat
  day : Nat
deriving DecidableEq, Repr

/-- Lexicographic less-or-equal on timestamps (SQL timestamp ordering). -/
def Timestamp.leb (a b : Timestamp) : Bool :=
  (a.year < b.year) ||
  (a.year == b.year &&
    ((a.month < b.month) || (a.month == b.month && a.day ≤ b.day)))

/-- SQL `timestamp BETWEEN s AND e`: inclusive at both ends. -/
def Timestamp.betweenB (t s e : Timestamp) : Bool :=
  s.leb t && t.leb e

/-- `func.date_trunc('month', ts)`: the first day of the month of `ts`. -/
def Timestamp.truncMonth (t : Timestamp) : Timestamp :=
  ⟨t.year, t.month, 1⟩

/-- `func.date_trunc('year', ts)`: the first day of the year of `ts`. -/
def Timestamp.truncYear (t : Timestamp) : Timestamp :=
  ⟨t.year, 1, 1⟩

/-- Row of `indicator_definitions` (fields used by the engine). The database
schema declares `code` unique. -/
structure IndicatorDefinition where
  id : Nat
  code : String
  name_en : String
  unit_of_measurement_id : Option Nat
deriving DecidableEq, Repr

/-- Row of `unit_of_measurements` (fields used by the engine). -/
structure UnitOfMeasurement where
  id : Nat
  abbreviation : String
deriving DecidableEq, Repr

/-- Row of `reporting_units` (fields used by the engine). -/
structure ReportingUnit where
  id : Nat
  name : String
deriving DecidableEq, Repr

/-- Row of `infrastructures` (fields used by the engine). -/
structure Infrastructure where
  id : Nat
  name : String
deriving DecidableEq, Repr

/-- Row of `temporal_resolutions`. -/
structure TemporalResolution where
  id : Nat
  name : String
deriving DecidableEq, Repr

/-- Row of `data_quality_flags`. -/
structure DataQualityFlag where
  id : Nat
  name : String
deriving DecidableEq, Repr

/-- Row of `indicator_timeseries`: one observation. Nullable columns are
`Option`; an observation belongs to at most one of reporting unit or
infrastructure (the engine does not enforce this, and neither does the model:
faithfulness to the query semantics does not depend on it). -/
structure IndicatorTimeseries where
  timestamp : Timestamp
  value_numeric : Option Rat
  value_text : Option String
  indicator_definition_id : Nat
  reporting_unit_id : Option Nat
  infrastructure_id : Option Nat
  temporal_resolution_id : Option Nat
  quality_flag_id : Option Nat
deriving DecidableEq, Repr

/-- The observation store and its reference tables, as seen by the engine. -/
structure Database where
  indicator_definitions : List IndicatorDefinition
  units_of_measurement : List UnitOfMeasurement
  reporting_units : List ReportingUnit
  infrastructures : List Infrastructure
  temporal_resolutions : List TemporalResolution
  data_quality_flags : List DataQualityFlag
  indicator_timeseries : List IndicatorTimeseries
deriving DecidableEq, Repr

/-- A field value in a result row: SQL NULL is `Option.none` inside the
constructor payload. -/
inductive Value where
  | ts (t : Timestamp)
  | num (q : Option Rat)
  | str (s : Option String)
  | nat (n : Option Nat)
deriving DecidableEq, Repr

/-- A result record: the Python service returns each row as a dict; absence of
a key models absence of the corresponding selected column. -/
abbrev Record := List (String × Value)

/-- SQL LEFT OUTER JOIN of one left row against a table: if no right row
matches, a single row with a NULL right side survives; otherwise one row per
match. -/
def leftJoin {α : Type} (rows : List α) (cond : α → Bool) : List (Option α) :=
  match rows.filter cond with
  | [] => [none]
  | ms => ms.map some

/-- One row of the FROM clause of the time-series query: the observation inner
joined to its indicator definition and left outer joined to the unit of
measurement, reporting unit, infrastructure, temporal resolution, and quality
flag tables (`joins` list in `get_timeseries_data`). -/
structure JoinedRow where
  ts : IndicatorTimeseries
  ind : IndicatorDefinition
  uom : Option UnitOfMeasurement
  ru : Option ReportingUnit
  infra : Option Infrastructure
  tr : Option TemporalResolution
  qf : Option DataQualityFlag
deriving DecidableEq, Repr

/-- All rows produced by the joins of the time-series query, before the WHERE
clause. -/
def joinedRows (db : Database) : List JoinedRow :=
  db.indicator_timeseries.flatMap fun t =>
    (db.indicator_definitions.filter fun i =>
        t.indicator_definition_id == i.id).flatMap fun i =>
      (leftJoin db.units_of_measurement fun u =>
          i.unit_of_measurement_id == some u.id).flatMap fun uo =>
        (leftJoin db.reporting_units fun r =>
            t.reporting_unit_id == some r.id).flatMap fun r =>
          (leftJoin db.infrastructures fun f =>
              t.infrastructure_id == some f.id).flatMap fun f =>
            (leftJoin db.temporal_resolutions fun tres =>
                t.temporal_resolution_id == some tres.id).flatMap fun tres =>
              (leftJoin db.data_quality_flags fun q =>
                  t.quality_flag_id == some q.id).map fun q =>
                ⟨t, i, uo, r, f, tres, q⟩

/-- The `def_query` of both service methods: resolve indicator codes to
internal ids (`select(IndicatorDefinition.id).where(code.in_(codes))`).
Unknown codes are silently dropped. -/
def resolveIndicatorIds (db : Database) (codes : List String) : List Nat :=
  (db.indicator_definitions.filter fun i => codes.contains i.code).map (·.id)

/-- `IndicatorTimeseries.reporting_unit_id.in_(reporting_unit_ids)`: SQL `IN`
is false (NULL) when the column is NULL. -/
def ruMatchB (ruIds : List Nat) (t : IndicatorTimeseries) : Bool :=
  match t.reporting_unit_id with
  | some r => ruIds.contains r
  | none => false

/-- `IndicatorTimeseries.infrastructure_id.in_(infrastructure_ids)`. -/
def infraMatchB (infraIds : List Nat) (t : IndicatorTimeseries) : Bool :=
  match t.infrastructure_id with
  | some f => infraIds.contains f
  | none => false

/-- The `location_filters` list: the membership filter for each location kind
is appended only when its id list is truthy (non-empty). -/
def locationFilters (ruIds infraIds : List Nat) (t : IndicatorTimeseries) :
    List Bool :=
  (if ruIds.isEmpty then [] else [ruMatchB ruIds t]) ++
  (if infraIds.isEmpty then [] else [infraMatchB infraIds t])

/-- `if location_filters: conditions.append(or_(*location_filters))`: the OR
of the present filters, or no restriction when neither set was supplied. -/
def locationCondition (ruIds infraIds : List Nat) (t : IndicatorTimeseries) :
    Bool :=
  match locationFilters ruIds infraIds t with
  | [] => true
  | fs => fs.any id

/-- The optional source-resolution filter: applied only when the name is
truthy (Python: a non-empty string); compares the outer-joined temporal
resolution name, which is NULL (hence no match) when the observation has
none. -/
def trCondition (trName : Option String) (j : JoinedRow) : Bool :=
  match trName with
  | none => true
  | some n =>
    if n.isEmpty then true
    else
      match j.tr with
      | some tres => tres.name == n
      | none => false

/-- The WHERE clause of the time-series query (`conditions` list combined with
`and_`). -/
def rowConditions (indicatorIds : List Nat) (startD endD : Timestamp)
    (ruIds infraIds : List Nat) (trName : Option String) (j : JoinedRow) :
    Bool :=
  indicatorIds.contains j.ts.indicator_definition_id &&
  j.ts.timestamp.betweenB startD endD &&
  locationCondition ruIds infraIds j.ts &&
  trCondition trName j

/-- The joined rows surviving the WHERE clause of the time-series query. -/
def timeseriesFilteredRows (db : Database) (codes : List String)
    (startD endD : Timestamp) (ruIds infraIds : List Nat)
    (trName : Option String) : List JoinedRow :=
  (joinedRows db).filter
    (rowConditions (resolveIndicatorIds db codes) startD endD ruIds infraIds
      trName)

/-- Python `str.lower()` for the ASCII method/granularity names the engine
compares against (defined at character level so that it evaluates by kernel
reduction). -/
def pyLower (s : String) : String :=
  String.mk (s.data.map Char.toLower)

/-- Stable insertion of one element into a list sorted by `le` (used to model
SQL ORDER BY; any stable sort is a faithful model of the deterministic order
the service relies on). -/
def insertSorted {α : Type} (le : α → α → Bool) (x : α) : List α → List α
  | [] => [x]
  | y :: ys => if le x y then x :: y :: ys else y :: insertSorted le x ys

/-- Stable sort by `le`: models the ORDER BY clause. -/
def sortBy {α : Type} (le : α → α → Bool) : List α → List α
  | [] => []
  | x :: xs => insertSorted le x (sortBy le xs)

/-- The distinct values of a list in order of first occurrence: models the set
of groups produced by SQL GROUP BY. -/
def dedupKeys {α : Type} [DecidableEq α] : List α → List α
  | [] => []
  | x :: xs => x :: dedupKeys (xs.filter fun y => y ≠ x)
termination_by l => l.length
decreasing_by
  simp only [List.length_cons]
  exact Nat.lt_succ_of_le (List.length_filter_le _ _)

/-- Addition of exact rationals written with the smart constructor `mkRat`
(so that concrete values evaluate by kernel reduction); shown below to agree
with `Rat` addition. -/
def ratAdd (a b : Rat) : Rat :=
  mkRat (a.num * b.den + b.num * a.den) (a.den * b.den)

/-- Sum of a list of rationals via `ratAdd`. -/
def ratSum (l : List Rat) : Rat :=
  l.foldr ratAdd 0

/-- Division of a rational by a natural number via `mkRat`; shown below to
agree with `Rat` division. -/
def ratDivNat (a : Rat) (n : Nat) : Rat :=
  mkRat a.num (a.den * n)

/-- SQL `avg` over a column: NULLs are ignored; NULL when no non-NULL value
exists. -/
def sqlAvg (vs : List (Option Rat)) : Option Rat :=
  let xs := vs.filterMap id
  if xs.isEmpty then none else some (ratDivNat (ratSum xs) xs.length)

/-- ORDER BY `timestamp, indicator_code` for the raw time-series plan. -/
def rawLe (a b : JoinedRow) : Bool :=
  if a.ts.timestamp = b.ts.timestamp then a.ind.code ≤ b.ind.code
  else a.ts.timestamp.leb b.ts.timestamp

/-- The selected columns of the raw time-series plan, as one labelled row. -/
def rawRecord (j : JoinedRow) : Record :=
  [("timestamp", Value.ts j.ts.timestamp),
   ("value", Value.num j.ts.value_numeric),
   ("value_text", Value.str j.ts.value_text),
   ("indicator_code", Value.str (some j.ind.code)),
   ("indicator_name", Value.str (some j.ind.name_en)),
   ("unit", Value.str (j.uom.map (·.abbreviation))),
   ("reporting_unit_name", Value.str (j.ru.map (·.name))),
   ("infrastructure_name", Value.str (j.infra.map (·.name))),
   ("source_temporal_resolution", Value.str (j.tr.map (·.name))),
   ("quality_flag", Value.str (j.qf.map (·.name)))]

/-- The raw (unaggregated) time-series plan: filtered rows ordered by
timestamp then indicator code. -/
def rawPlan (rows : List JoinedRow) : List Record :=
  (sortBy rawLe rows).map rawRecord

/-- The GROUP BY key of the aggregated time-series plan (`group_by_fields`):
truncated timestamp, indicator code and name, unit abbreviation, reporting
unit name, infrastructure name. Outer-joined labels are NULL-able. -/
structure AggKey where
  bucket : Timestamp
  code : String
  name_en : String
  unit : Option String
  reporting_unit_name : Option String
  infrastructure_name : Option String
deriving DecidableEq, Repr

/-- The group key of one joined row under the truncation `trunc`. -/
def aggKeyOf (trunc : Timestamp → Timestamp) (j : JoinedRow) : AggKey :=
  ⟨trunc j.ts.timestamp, j.ind.code, j.ind.name_en,
   j.uom.map (·.abbreviation), j.ru.map (·.name), j.infra.map (·.name)⟩

/-- ORDER BY `trunc_field, indicator_code` for the aggregated plan. -/
def aggLe (a b : AggKey) : Bool :=
  if a.bucket = b.bucket then a.code ≤ b.code
  else a.bucket.leb b.bucket

/-- The selected columns of one aggregated group: bucket-start timestamp,
average value, grouping labels, and the `aggregation_level` marker carrying
the requested granularity string verbatim. -/
def aggRecordOf (trunc : Timestamp → Timestamp) (rows : List JoinedRow)
    (aggTo : String) (k : AggKey) : Record :=
  [("timestamp", Value.ts k.bucket),
   ("value", Value.num (sqlAvg
      ((rows.filter fun j => aggKeyOf trunc j == k).map (·.ts.value_numeric)))),
   ("indicator_code", Value.str (some k.code)),
   ("indicator_name", Value.str (some k.name_en)),
   ("unit", Value.str k.unit),
   ("reporting_unit_name", Value.str k.reporting_unit_name),
   ("infrastructure_name", Value.str k.infrastructure_name),
   ("aggregation_level", Value.str (some aggTo))]

/-- The aggregated time-series plan: group the filtered rows by their key,
average `value_numeric` within each group, order groups by bucket then code. -/
def aggregatedPlan (trunc : Timestamp → Timestamp) (rows : List JoinedRow)
    (aggTo : String) : List Record :=
  (sortBy aggLe (dedupKeys (rows.map (aggKeyOf trunc)))).map
    (aggRecordOf trunc rows aggTo)

/-- `DataService.get_timeseries_data`. Optional Python arguments are modelled
with `[]` for an absent id list and `none` for absent strings; a supplied
empty list or empty string is falsy in the source and is treated identically.
The `aggregate_to` branch matches `monthly` and `annual` case-insensitively;
`seasonal` (the unfinished branch) and any other string leave the truncation
field unset, so the raw query is built. -/
def get_timeseries_data (db : Database)
    (indicator_definition_codes : List String)
    (start_date end_date : Timestamp)
    (reporting_unit_ids : List Nat := [])
    (infrastructure_ids : List Nat := [])
    (temporal_resolution_name : Option String := none)
    (aggregate_to : Option String := none) : List Record :=
  let ids := resolveIndicatorIds db indicator_definition_codes
  if ids.isEmpty then []
  else
    let rows := (joinedRows db).filter
      (rowConditions ids start_date end_date reporting_unit_ids
        infrastructure_ids temporal_resolution_name)
    match aggregate_to with
    | none => rawPlan rows
    | some g =>
      if g.isEmpty then rawPlan rows
      else if pyLower g == "monthly" then
        aggregatedPlan Timestamp.truncMonth rows g
      else if pyLower g == "annual" then
        aggregatedPlan Timestamp.truncYear rows g
      else rawPlan rows

/-- The error signals of the API layer. -/
inductive HttpError where
  | badRequest (detail : String)
  | internalServerError (detail : String)
deriving DecidableEq, Repr

/-- The route handler `get_timeseries_data_points` of
`api/v1/endpoints/timeseries.py`: rejects a request that supplies neither
location id list, otherwise delegates to the service. -/
def get_timeseries_data_points (db : Database) (indicator_codes : List String)
    (start_date end_date : Timestamp)
    (reporting_unit_ids infrastructure_ids : List Nat)
    (temporal_resolution_name : Option String)
    (aggregate_to : Option String) : Except HttpError (List Record) :=
  if reporting_unit_ids.isEmpty && infrastructure_ids.isEmpty then
    Except.error (HttpError.badRequest
      "Either reporting_unit_ids or infrastructure_ids must be provided for timeseries data.")
  else
    Except.ok (get_timeseries_data db indicator_codes start_date end_date
      reporting_unit_ids infrastructure_ids temporal_resolution_name
      aggregate_to)

/-- The values of the string-keyed `agg_func_map` of `get_summary_data`. -/
inductive AggFunc where
  | avg
  | sum
  | min
  | max
  | count
  | last_value
deriving DecidableEq, Repr

/-- The `agg_func_map` dictionary: note that besides the five ordinary
aggregates it also maps `LatestValue` to the window function `last_value`. -/
def agg_func_map : List (String × AggFunc) :=
  [("Average", AggFunc.avg), ("Sum", AggFunc.sum), ("Min", AggFunc.min),
   ("Max", AggFunc.max), ("Count", AggFunc.count),
   ("LatestValue", AggFunc.last_value)]

/-- SQL `sum` over a column: NULLs ignored, NULL on an all-NULL input. -/
def sqlSum (vs : List (Option Rat)) : Option Rat :=
  let xs := vs.filterMap id
  if xs.isEmpty then none else some (ratSum xs)

/-- SQL `min` over a column: NULLs ignored, NULL on an all-NULL input. -/
def sqlMin (vs : List (Option Rat)) : Option Rat :=
  match vs.filterMap id with
  | [] => none
  | x :: rest => some (rest.foldl min x)

/-- SQL `max` over a column: NULLs ignored, NULL on an all-NULL input. -/
def sqlMax (vs : List (Option Rat)) : Option Rat :=
  match vs.filterMap id with
  | [] => none
  | x :: rest => some (rest.foldl max x)

/-- SQL `count(col)`: the number of non-NULL values, never NULL. -/
def sqlCount (vs : List (Option Rat)) : Option Rat :=
  some ((vs.filterMap id).length : Rat)

/-- The reduction applied per group by the summary query. `last_value` never
reaches this point: the store rejects a `last_value` call without an OVER
clause before any group is evaluated (see `executeSummary`), so its equation
here is dead and returns NULL. -/
def applyAggFunc : AggFunc → List (Option Rat) → Option Rat
  | AggFunc.avg, vs => sqlAvg vs
  | AggFunc.sum, vs => sqlSum vs
  | AggFunc.min, vs => sqlMin vs
  | AggFunc.max, vs => sqlMax vs
  | AggFunc.count, vs => sqlCount vs
  | AggFunc.last_value, _ => none

/-- The failure channel of the service methods: `valueError` is the Python
`ValueError` surfaced to the API layer as a client error (HTTP 400), while
`storeError` is a database-level failure surfaced as a server error. -/
inductive QueryError where
  | valueError (msg : String)
  | storeError (msg : String)
deriving DecidableEq, Repr

/-- One row of the FROM clause of the summary query: the observation inner
joined to its indicator definition, left outer joined to the unit of
measurement, and — depending on which location id list is truthy — inner
joined to the reporting unit or to the infrastructure table to surface one
`location_name`/`location_id` pair. With neither list supplied there is no
location join and the label columns are absent (modelled as NULL here; they
are not selected in that case). -/
structure SummaryJoined where
  ts : IndicatorTimeseries
  ind : IndicatorDefinition
  uom : Option UnitOfMeasurement
  location_name : Option String
  location_id : Option Nat
deriving DecidableEq, Repr

/-- The joins of the summary query. The source appends the location join with
an `if reporting_unit_ids: ... elif infrastructure_ids: ...` chain: when both
lists are supplied only the reporting-unit join is added. -/
def summaryJoinedRows (db : Database) (ruIds infraIds : List Nat) :
    List SummaryJoined :=
  db.indicator_timeseries.flatMap fun t =>
    (db.indicator_definitions.filter fun i =>
        t.indicator_definition_id == i.id).flatMap fun i =>
      (leftJoin db.units_of_measurement fun u =>
          i.unit_of_measurement_id == some u.id).flatMap fun uo =>
        if !ruIds.isEmpty then
          (db.reporting_units.filter fun r =>
              t.reporting_unit_id == some r.id).map fun r =>
            ⟨t, i, uo, some r.name, some r.id⟩
        else if !infraIds.isEmpty then
          (db.infrastructures.filter fun f =>
              t.infrastructure_id == some f.id).map fun f =>
            ⟨t, i, uo, some f.name, some f.id⟩
        else
          [⟨t, i, uo, none, none⟩]

/-- The WHERE clause of the summary query: indicator membership, inclusive
time window, and the location membership condition of whichever single
location kind was joined (`if ... elif ...`, never an OR of both). -/
def summaryConditions (indicatorIds : List Nat) (startD endD : Timestamp)
    (ruIds infraIds : List Nat) (r : SummaryJoined) : Bool :=
  indicatorIds.contains r.ts.indicator_definition_id &&
  r.ts.timestamp.betweenB startD endD &&
  (if !ruIds.isEmpty then ruMatchB ruIds r.ts
   else if !infraIds.isEmpty then infraMatchB infraIds r.ts
   else true)

/-- The GROUP BY key of the summary query (`group_by_columns`): indicator
code, name, unit abbreviation, and — when a location join is present —
location name and id. -/
structure SummaryKey where
  code : String
  name_en : String
  unit : Option String
  location_name : Option String
  location_id : Option Nat
deriving DecidableEq, Repr

/-- The summary group key of one joined row. -/
def summaryKeyOf (r : SummaryJoined) : SummaryKey :=
  ⟨r.ind.code, r.ind.name_en, r.uom.map (·.abbreviation),
   r.location_name, r.location_id⟩

/-- ORDER BY the first grouping column only (`group_by_columns[:1]`):
indicator code. -/
def summaryLe (a b : SummaryKey) : Bool :=
  a.code ≤ b.code

/-- The selected columns of one summary group. The location label pair is
selected only when a location join is present. -/
def summaryRecordOf (locJoined : Bool) (rows : List SummaryJoined)
    (f : AggFunc) (k : SummaryKey) : Record :=
  [("indicator_code", Value.str (some k.code)),
   ("indicator_name", Value.str (some k.name_en)),
   ("unit", Value.str k.unit),
   ("aggregated_value", Value.num (applyAggFunc f
      ((rows.filter fun r => summaryKeyOf r == k).map (·.ts.value_numeric))))]
  ++ (if locJoined then
        [("location_name", Value.str k.location_name),
         ("location_id", Value.nat k.location_id)]
      else [])

/-- Execution of the assembled summary query by the store. PostgreSQL rejects
`last_value` used as a plain aggregate (a window function requires an OVER
clause) when the statement is planned, before any row is read; that rejection
is a store-level error, not a Python `ValueError`. -/
def executeSummary (db : Database) (indicatorIds : List Nat)
    (startD endD : Timestamp) (ruIds infraIds : List Nat) (f : AggFunc) :
    Except QueryError (List Record) :=
  if f = AggFunc.last_value then
    Except.error (QueryError.storeError
      "window function last_value requires an OVER clause")
  else
    let rows := (summaryJoinedRows db ruIds infraIds).filter
      (summaryConditions indicatorIds startD endD ruIds infraIds)
    let locJoined := !ruIds.isEmpty || !infraIds.isEmpty
    Except.ok ((sortBy summaryLe (dedupKeys (rows.map summaryKeyOf))).map
      (summaryRecordOf locJoined rows f))

/-- `DataService.get_summary_data`: resolve codes (short-circuiting to an
empty result when none resolve), look the method name up in `agg_func_map`
(raising `ValueError` when absent), then assemble and execute the grouped
summary query. -/
def get_summary_data (db : Database)
    (indicator_definition_codes : List String)
    (time_period_start time_period_end : Timestamp)
    (reporting_unit_ids : List Nat := [])
    (infrastructure_ids : List Nat := [])
    (aggregation_method : String := "Average") :
    Except QueryError (List Record) :=
  let ids := resolveIndicatorIds db indicator_definition_codes
  if ids.isEmpty then Except.ok []
  else
    match agg_func_map.lookup aggregation_method with
    | none => Except.error (QueryError.valueError
        ("Unsupported aggregation method: " ++ aggregation_method))
    | some f => executeSummary db ids time_period_start time_period_end
        reporting_unit_ids infrastructure_ids f

/-- Whether a service outcome is the Python `ValueError` that the API layer
translates into an invalid-request (HTTP 400) response. -/
def isValueError : Except QueryError (List Record) → Bool
  | Except.error (QueryError.valueError _) => true
  | _ => false

/-- The grouping key stated by the spec for the aggregated time-series plan:
(truncated timestamp, indicator code, unit abbreviation, location name) — the
location name being the pair of outer-joined reporting-unit and
infrastructure name columns the plan surfaces. Unlike `AggKey`, the indicator
display name is not part of this key: the spec keys groups by the unique
indicator code alone. -/
structure SpecAggKey where
  bucket : Timestamp
  code : String
  unit : Option String
  reporting_unit_name : Option String
  infrastructure_name : Option String
deriving DecidableEq, Repr

/-- The spec grouping key of one joined row. -/
def specKeyOf (trunc : Timestamp → Timestamp) (j : JoinedRow) : SpecAggKey :=
  ⟨trunc j.ts.timestamp, j.ind.code, j.uom.map (·.abbreviation),
   j.ru.map (·.name), j.infra.map (·.name)⟩

/-- Bucket-start-then-code ordering on spec keys. -/
def specLe (a b : SpecAggKey) : Bool :=
  if a.bucket = b.bucket then a.code ≤ b.code
  else a.bucket.leb b.bucket

/-- Forgetting the indicator display name turns the implementation group key
into the spec group key. -/
def projSpecKey (k : AggKey) : SpecAggKey :=
  ⟨k.bucket, k.code, k.unit, k.reporting_unit_name, k.infrastructure_name⟩

/-- One aggregated record as the spec describes it: bucket-start timestamp,
average of the grouped observation values, catalog labels (the indicator name
surfaced from the group, which is constant on a group), the location name
columns, and an `aggregation_level` marker equal to the requested granularity
string; no `value_text`, source-resolution, or quality-flag field. -/
def specAggRecordOf (trunc : Timestamp → Timestamp) (rows : List JoinedRow)
    (g : String) (k : SpecAggKey) : Record :=
  [("timestamp", Value.ts k.bucket),
   ("value", Value.num (sqlAvg
      ((rows.filter fun j => specKeyOf trunc j == k).map (·.ts.value_numeric)))),
   ("indicator_code", Value.str (some k.code)),
   ("indicator_name", Value.str
      (match rows.filter fun j => specKeyOf trunc j == k with
       | [] => none
       | j :: _ => some j.ind.name_en)),
   ("unit", Value.str k.unit),
   ("reporting_unit_name", Value.str k.reporting_unit_name),
   ("infrastructure_name", Value.str k.infrastructure_name),
   ("aggregation_level", Value.str (some g))]

/-- The aggregated time-series result as §4.3 of the spec words it, for a
requested granularity of `Monthly` or `Annual`: resolve codes (empty result
when none resolve), filter, truncate each observation timestamp to the start
of the requested period, group by (truncated timestamp, indicator code, unit
abbreviation, location name), reduce the numeric value with an average, order
by bucket then code. -/
def specAggregatedTimeseries (db : Database) (codes : List String)
    (startD endD : Timestamp) (ruIds infraIds : List Nat)
    (trName : Option String) (g : String) : List Record :=
  let ids := resolveIndicatorIds db codes
  if ids.isEmpty then []
  else
    let rows := (joinedRows db).filter
      (rowConditions ids startD endD ruIds infraIds trName)
    let trunc := if g = "Monthly" then Timestamp.truncMonth
      else Timestamp.truncYear
    (sortBy specLe (dedupKeys (rows.map (specKeyOf trunc)))).map
      (specAggRecordOf trunc rows g)

/-- Example catalog and store realizing the spec scenario: indicator
`Q_RIVER`, reporting unit 101, infrastructure 501, and three daily
observations of 50, 100, 150 on 2023-01-15/16/17 attributed to reporting
unit 101. -/
def exDb : Database :=
  ⟨[⟨1, "Q_RIVER", "River Discharge", some 10⟩],
   [⟨10, "m3/s"⟩],
   [⟨101, "Basin A"⟩],
   [⟨501, "Dam X"⟩],
   [⟨7, "Daily"⟩],
   [⟨3, "Measured"⟩],
   [⟨⟨2023, 1, 15⟩, some 50, none, 1, some 101, none, some 7, some 3⟩,
    ⟨⟨2023, 1, 16⟩, some 100, none, 1, some 101, none, some 7, some 3⟩,
    ⟨⟨2023, 1, 17⟩, some 150, none, 1, some 101, none, some 7, some 3⟩]⟩

/-- Same catalog as `exDb`, but the only observation is attributed to
infrastructure 501 and to no reporting unit. -/
def exDbInfra : Database :=
  ⟨[⟨1, "Q_RIVER", "River Discharge", some 10⟩],
   [⟨10, "m3/s"⟩],
   [⟨101, "Basin A"⟩],
   [⟨501, "Dam X"⟩],
   [⟨7, "Daily"⟩],
   [⟨3, "Measured"⟩],
   [⟨⟨2023, 1, 15⟩, some 42, none, 1, none, some 501, none, none⟩]⟩

/-- Same catalog as `exDb`, with one observation under reporting unit 101 and
one under infrastructure 501. -/
def exDbMixed : Database :=
  ⟨[⟨1, "Q_RIVER", "River Discharge", some 10⟩],
   [⟨10, "m3/s"⟩],
   [⟨101, "Basin A"⟩],
   [⟨501, "Dam X"⟩],
   [⟨7, "Daily"⟩],
   [⟨3, "Measured"⟩],
   [⟨⟨2023, 1, 10⟩, some 5, none, 1, some 101, none, none, none⟩,
    ⟨⟨2023, 1, 20⟩, some 7, none, 1, none, some 501, none, none⟩]⟩

/-- Replace the observation table of a database, keeping every reference
table: used to state that a call never reads the observation store. -/
def withObservations (db : Database) (obs : List IndicatorTimeseries) :
    Database :=
  ⟨db.indicator_definitions, db.units_of_measurement, db.reporting_units,
   db.infrastructures, db.temporal_resolutions, db.data_quality_flags, obs⟩

/-- Comparison of two result records by their `timestamp` field and then
their `indicator_code` field (the ordering contract of the time-series
plans); false when either record lacks these fields. -/
def recordOrderLe (r1 r2 : Record) : Bool :=
  match r1.lookup "timestamp", r2.lookup "timestamp",
      r1.lookup "indicator_code", r2.lookup "indicator_code" with
  | some (Value.ts t1), some (Value.ts t2),
      some (Value.str (some c1)), some (Value.str (some c2)) =>
    if t1 = t2 then c1 ≤ c2 else t1.leb t2
  | _, _, _, _ => false

theorem Timestamp.leb_refl (a : Timestamp) : a.leb a = true := by
  simp [Timestamp.leb]

theorem Timestamp.leb_total (a b : Timestamp) :
    a.leb b = true ∨ b.leb a = true := by
  simp only [Timestamp.leb, Bool.or_eq_true, Bool.and_eq_true, beq_iff_eq,
    decide_eq_true_eq]
  omega

theorem Timestamp.leb_trans {a b c : Timestamp}
    (h1 : a.leb b = true) (h2 : b.leb c = true) : a.leb c = true := by
  simp only [Timestamp.leb, Bool.or_eq_true, Bool.and_eq_true, beq_iff_eq,
    decide_eq_true_eq] at h1 h2 ⊢
  omega

theorem mem_insertSorted {α : Type} (le : α → α → Bool) (x y : α)
    (l : List α) : y ∈ insertSorted le x l ↔ y = x ∨ y ∈ l := by
  induction l with
  | nil => simp [insertSorted]
  | cons z zs ih =>
    rw [insertSorted]
    by_cases h : le x z = true
    · rw [if_pos h]
      simp only [List.mem_cons]
    · rw [if_neg h]
      simp only [List.mem_cons, ih]
      tauto

theorem mem_sortBy {α : Type} (le : α → α → Bool) (y : α) (l : List α) :
    y ∈ sortBy le l ↔ y ∈ l := by
  induction l with
  | nil => simp [sortBy]
  | cons x xs ih =>
    rw [sortBy, mem_insertSorted]
    simp [ih]

theorem chain'_insertSorted {α : Type} (le : α → α → Bool)
    (htot : ∀ a b, le a b = true ∨ le b a = true) (x : α) :
    ∀ l : List α, List.Chain' (fun a b => le a b = true) l →
      List.Chain' (fun a b => le a b = true) (insertSorted le x l) := by
  intro l
  induction l with
  | nil => intro _; simp [insertSorted]
  | cons y ys ih =>
    intro h
    rw [insertSorted]
    by_cases hxy : le x y = true
    · rw [if_pos hxy]
      exact List.chain'_cons.mpr ⟨hxy, h⟩
    · rw [if_neg hxy]
      have hyx : le y x = true := (htot x y).resolve_left hxy
      have hins := ih h.tail
      cases ys with
      | nil =>
        rw [insertSorted]
        exact List.chain'_cons.mpr ⟨hyx, List.chain'_singleton x⟩
      | cons z zs =>
        rw [insertSorted] at hins ⊢
        by_cases hxz : le x z = true
        · rw [if_pos hxz] at hins ⊢
          exact List.chain'_cons.mpr ⟨hyx, hins⟩
        · rw [if_neg hxz] at hins ⊢
          exact List.chain'_cons.mpr ⟨(List.chain'_cons.mp h).1, hins⟩

theorem chain'_sortBy {α : Type} (le : α → α → Bool)
    (htot : ∀ a b, le a b = true ∨ le b a = true) (l : List α) :
    List.Chain' (fun a b => le a b = true) (sortBy le l) := by
  induction l with
  | nil => simp [sortBy]
  | cons x xs ih =>
    rw [sortBy]
    exact chain'_insertSorted le htot x _ ih

theorem insertSorted_map {α β : Type} (g : α → β) (le : α → α → Bool)
    (le2 : β → β → Bool) (hg : ∀ a b, le2 (g a) (g b) = le a b) (x : α) :
    ∀ l : List α,
      insertSorted le2 (g x) (l.map g) = (insertSorted le x l).map g := by
  intro l
  induction l with
  | nil => simp [insertSorted]
  | cons y ys ih =>
    simp only [List.map_cons, insertSorted, hg]
    by_cases h : le x y = true
    · simp [h]
    · simp [h, ih]

theorem sortBy_map {α β : Type} (g : α → β) (le : α → α → Bool)
    (le2 : β → β → Bool) (hg : ∀ a b, le2 (g a) (g b) = le a b) :
    ∀ l : List α, sortBy le2 (l.map g) = (sortBy le l).map g := by
  intro l
  induction l with
  | nil => simp [sortBy]
  | cons x xs ih =>
    simp only [List.map_cons, sortBy]
    rw [ih]
    exact insertSorted_map g le le2 hg x _

theorem mem_dedupKeys {α : Type} [DecidableEq α] :
    ∀ (l : List α) (x : α), x ∈ dedupKeys l ↔ x ∈ l := by
  intro l
  induction l using dedupKeys.induct with
  | case1 => simp [dedupKeys]
  | case2 y ys ih =>
    intro x
    rw [dedupKeys, List.mem_cons, ih x, List.mem_filter]
    by_cases hxy : x = y <;> simp [hxy]

theorem dedupKeys_map {α β : Type} [DecidableEq α] [DecidableEq β]
    (g : α → β) :
    ∀ l : List α, (∀ a ∈ l, ∀ b ∈ l, g a = g b → a = b) →
      dedupKeys (l.map g) = (dedupKeys l).map g := by
  intro l
  induction l using dedupKeys.induct with
  | case1 => intro _; simp [dedupKeys]
  | case2 x xs ih =>
    intro hinj
    rw [List.map_cons, dedupKeys, dedupKeys, List.map_cons]
    congr 1
    have hfil : (xs.map g).filter (fun z => z ≠ g x) =
        (xs.filter (fun y => y ≠ x)).map g := by
      rw [List.filter_map]
      congr 1
      apply List.filter_congr
      intro y hy
      by_cases hyx : y = x
      · subst hyx; simp
      · have hne : ¬ g y = g x := fun he =>
          hyx (hinj y (List.mem_cons_of_mem _ hy) x (List.mem_cons_self x xs) he)
        simp [hyx, hne]
    rw [hfil]
    exact ih fun a ha b hb hab =>
      hinj a (List.mem_cons_of_mem _ (List.mem_of_mem_filter ha))
        b (List.mem_cons_of_mem _ (List.mem_of_mem_filter hb)) hab

theorem dedupKeys_const {α : Type} [DecidableEq α] (k : α) :
    ∀ l : List α, l ≠ [] → (∀ x ∈ l, x = k) → dedupKeys l = [k] := by
  intro l
  induction l using dedupKeys.induct with
  | case1 => intro h _; exact absurd rfl h
  | case2 x xs ih =>
    intro _ hall
    have hx : x = k := hall x (List.mem_cons_self x xs)
    subst hx
    rw [dedupKeys]
    have hnil : xs.filter (fun y => y ≠ x) = [] := by
      apply List.filter_eq_nil_iff.mpr
      intro y hy
      have := hall y (List.mem_cons_of_mem _ hy)
      simp [this]
    rw [hnil, dedupKeys]

theorem ind_mem_of_mem_joinedRows {db : Database} {j : JoinedRow}
    (h : j ∈ joinedRows db) : j.ind ∈ db.indicator_definitions := by
  simp only [joinedRows, List.mem_flatMap, List.mem_map, List.mem_filter] at h
  obtain ⟨t, _, i, ⟨hi, _⟩, uo, _, r, _, f, _, tres, _, q, _, heq⟩ := h
  rw [← heq]
  exact hi

theorem specKeyOf_eq_proj (trunc : Timestamp → Timestamp) (j : JoinedRow) :
    specKeyOf trunc j = projSpecKey (aggKeyOf trunc j) := rfl

theorem aggregatedPlan_eq_spec (trunc : Timestamp → Timestamp)
    (rows : List JoinedRow) (g : String)
    (hinj : ∀ j1 ∈ rows, ∀ j2 ∈ rows,
      specKeyOf trunc j1 = specKeyOf trunc j2 →
      aggKeyOf trunc j1 = aggKeyOf trunc j2) :
    aggregatedPlan trunc rows g =
      (sortBy specLe (dedupKeys (rows.map (specKeyOf trunc)))).map
        (specAggRecordOf trunc rows g) := by
  have hginj : ∀ a ∈ rows.map (aggKeyOf trunc),
      ∀ b ∈ rows.map (aggKeyOf trunc), projSpecKey a = projSpecKey b →
        a = b := by
    intro a ha b hb hab
    obtain ⟨j1, hj1, rfl⟩ := List.mem_map.mp ha
    obtain ⟨j2, hj2, rfl⟩ := List.mem_map.mp hb
    exact hinj j1 hj1 j2 hj2 hab
  have hcomp : rows.map (specKeyOf trunc) =
      (rows.map (aggKeyOf trunc)).map projSpecKey := by
    rw [List.map_map]
    rfl
  rw [hcomp, dedupKeys_map projSpecKey _ hginj,
    sortBy_map projSpecKey aggLe specLe (fun a b => rfl), List.map_map,
    aggregatedPlan]
  apply List.map_congr_left
  intro k hk
  have hk2 : k ∈ rows.map (aggKeyOf trunc) :=
    (mem_dedupKeys _ k).mp ((mem_sortBy _ k _).mp hk)
  obtain ⟨j2, hj2, hkey⟩ := List.mem_map.mp hk2
  have hgroup : (rows.filter fun j => specKeyOf trunc j == projSpecKey k) =
      (rows.filter fun j => aggKeyOf trunc j == k) := by
    apply List.filter_congr
    intro j hj
    by_cases hak : aggKeyOf trunc j = k
    · have hproj : specKeyOf trunc j = projSpecKey k := by
        rw [specKeyOf_eq_proj, hak]
      simp [hproj, hak]
    · have hsk : ¬ specKeyOf trunc j = projSpecKey k := by
        intro he
        apply hak
        have h2 : specKeyOf trunc j2 = projSpecKey k := by
          rw [specKeyOf_eq_proj, hkey]
        rw [← hkey]
        exact hinj j hj j2 hj2 (he.trans h2.symm)
      simp [hsk, hak]
  have hmem2 : j2 ∈ rows.filter fun j => aggKeyOf trunc j == k :=
    List.mem_filter.mpr ⟨hj2, by simp [hkey]⟩
  simp only [Function.comp_apply, aggRecordOf, specAggRecordOf]
  rw [hgroup]
  cases hG : rows.filter fun j => aggKeyOf trunc j == k with
  | nil =>
    rw [hG] at hmem2
    exact absurd hmem2 (List.not_mem_nil j2)
  | cons j0 t =>
    have hj0 : j0 ∈ rows.filter fun j => aggKeyOf trunc j == k := by
      rw [hG]
      exact List.mem_cons_self j0 t
    have hj0k : aggKeyOf trunc j0 = k :=
      by simpa using (List.mem_filter.mp hj0).2
    have hname : j0.ind.name_en = k.name_en := by
      rw [← hj0k]
      rfl
    simp [projSpecKey, hname]

/-- C1: for every call to `get_timeseries_data` with a requested granularity
of `Monthly` or `Annual` (on a catalog with unique indicator codes, as the
schema declares), the result is the aggregated plan the spec describes: one
record per group of (period-start-truncated timestamp, indicator code, unit
abbreviation, location name), whose timestamp is the bucket start, whose
value is the average of the grouped observation values, which drops the
per-row `value_text`, source-resolution, and quality-flag fields, and which
carries an `aggregation_level` field equal to the requested granularity
string. -/
theorem timeseries_aggregation_follows_spec (db : Database)
    (codes : List String) (s e : Timestamp) (ruIds infraIds : List Nat)
    (trName : Option String) (g : String)
    (hcode : ∀ a ∈ db.indicator_definitions, ∀ b ∈ db.indicator_definitions,
      a.code = b.code → a = b)
    (hg : g = "Monthly" ∨ g = "Annual") :
    get_timeseries_data db codes s e ruIds infraIds trName (some g) =
      specAggregatedTimeseries db codes s e ruIds infraIds trName g := by
  have hinj : ∀ trunc : Timestamp → Timestamp,
      ∀ j1 ∈ (joinedRows db).filter
        (rowConditions (resolveIndicatorIds db codes) s e ruIds infraIds
          trName),
      ∀ j2 ∈ (joinedRows db).filter
        (rowConditions (resolveIndicatorIds db codes) s e ruIds infraIds
          trName),
      specKeyOf trunc j1 = specKeyOf trunc j2 →
        aggKeyOf trunc j1 = aggKeyOf trunc j2 := by
    intro trunc j1 h1 j2 h2 hspec
    have hi1 := ind_mem_of_mem_joinedRows (List.mem_filter.mp h1).1
    have hi2 := ind_mem_of_mem_joinedRows (List.mem_filter.mp h2).1
    simp only [specKeyOf, SpecAggKey.mk.injEq] at hspec
    obtain ⟨hb, hc, hu, hr, hf⟩ := hspec
    have hind : j1.ind = j2.ind := hcode _ hi1 _ hi2 hc
    simp only [aggKeyOf, AggKey.mk.injEq]
    exact ⟨hb, hc, by rw [hind], hu, hr, hf⟩
  rcases hg with rfl | rfl
  · simp only [get_timeseries_data, specAggregatedTimeseries]
    by_cases hids : (resolveIndicatorIds db codes).isEmpty
    · simp [hids]
    · simp only [hids, if_false, Bool.false_eq_true]
      have e1 : "Monthly".isEmpty = false := rfl
      have e2 : (pyLower "Monthly" == "monthly") = true := by decide
      have e3 : ("Monthly" : String) = "Monthly" := rfl
      simp only [e1, e2, if_true, if_false, Bool.false_eq_true,
        Bool.true_eq_false, if_pos e3]
      exact aggregatedPlan_eq_spec Timestamp.truncMonth _ "Monthly" (hinj _)
  · simp only [get_timeseries_data, specAggregatedTimeseries]
    by_cases hids : (resolveIndicatorIds db codes).isEmpty
    · simp [hids]
    · simp only [hids, if_false, Bool.false_eq_true]
      have e1 : "Annual".isEmpty = false := rfl
      have e2 : (pyLower "Annual" == "monthly") = false := by decide
      have e4 : (pyLower "Annual" == "annual") = true := by decide
      have e5 : ¬ ("Annual" : String) = "Monthly" := by decide
      simp only [e1, e2, e4, if_true, if_false, Bool.false_eq_true,
        Bool.true_eq_false, if_neg e5]
      exact aggregatedPlan_eq_spec Timestamp.truncYear _ "Annual" (hinj _)

/-- Witness for C1: the scenario store has unique codes and the Monthly call
matches the spec aggregation on it. -/
theorem timeseries_aggregation_follows_spec_witness :
    (∀ a ∈ exDb.indicator_definitions, ∀ b ∈ exDb.indicator_definitions,
      a.code = b.code → a = b) ∧
    get_timeseries_data exDb ["Q_RIVER"] ⟨2023, 1, 1⟩ ⟨2023, 1, 31⟩ [101] []
        none (some "Monthly") =
      specAggregatedTimeseries exDb ["Q_RIVER"] ⟨2023, 1, 1⟩ ⟨2023, 1, 31⟩
        [101] [] none "Monthly" :=
  ⟨by decide,
   timeseries_aggregation_follows_spec exDb ["Q_RIVER"] ⟨2023, 1, 1⟩
     ⟨2023, 1, 31⟩ [101] [] none "Monthly" (by decide) (Or.inl rfl)⟩

/-- C10: for every `aggregate_to` string that is not (case-insensitively)
`monthly` or `annual` — `Seasonal`, arbitrary strings, and the falsy empty
string alike — `get_timeseries_data` returns exactly what the call without
`aggregate_to` returns: both branches assemble the identical raw query. -/
theorem unsupported_granularity_equals_no_aggregation (db : Database)
    (codes : List String) (s e : Timestamp) (ru infra : List Nat)
    (trName : Option String) (g : String)
    (h1 : (pyLower g == "monthly") = false)
    (h2 : (pyLower g == "annual") = false) :
    get_timeseries_data db codes s e ru infra trName (some g) =
      get_timeseries_data db codes s e ru infra trName none := by
  simp only [get_timeseries_data]
  by_cases hids : (resolveIndicatorIds db codes).isEmpty
  · simp [hids]
  · by_cases hgE : g.isEmpty
    · simp [hids, hgE]
    · simp [hids, hgE, h1, h2]

/-- Witness for C10: a `Seasonal` call on the scenario store coincides with
the unaggregated call. -/
theorem unsupported_granularity_equals_no_aggregation_witness :
    (pyLower "Seasonal" == "monthly") = false ∧
    (pyLower "Seasonal" == "annual") = false ∧
    get_timeseries_data exDb ["Q_RIVER"] ⟨2023, 1, 1⟩ ⟨2023, 1, 31⟩ [101] []
        none (some "Seasonal") =
      get_timeseries_data exDb ["Q_RIVER"] ⟨2023, 1, 1⟩ ⟨2023, 1, 31⟩ [101] []
        none none :=
  ⟨by decide, by decide,
   unsupported_granularity_equals_no_aggregation exDb ["Q_RIVER"]
     ⟨2023, 1, 1⟩ ⟨2023, 1, 31⟩ [101] [] none "Seasonal" (by decide)
     (by decide)⟩

/-- C5: when none of the supplied indicator codes resolve against the
catalog, both `get_timeseries_data` and `get_summary_data` return an empty
successful result, and they do so for every content of the observation
table — the observation store is never consulted. -/
theorem unresolved_codes_short_circuit (db : Database) (codes : List String)
    (s e : Timestamp) (ru infra : List Nat) (trName : Option String)
    (agg : Option String) (m : String) (obs : List IndicatorTimeseries)
    (h : resolveIndicatorIds db codes = []) :
    get_timeseries_data (withObservations db obs) codes s e ru infra trName
        agg = [] ∧
    get_summary_data (withObservations db obs) codes s e ru infra m =
      Except.ok [] := by
  have hres : resolveIndicatorIds (withObservations db obs) codes = [] := h
  constructor
  · simp [get_timeseries_data, hres]
  · simp [get_summary_data, hres]

/-- Witness for C5: an unknown code yields empty results on the scenario
store (here with its observation table swapped for a fresh one, showing the
store contents are irrelevant). -/
theorem unresolved_codes_short_circuit_witness :
    resolveIndicatorIds exDb ["NO_SUCH_CODE"] = [] ∧
    (get_timeseries_data
        (withObservations exDb
          [⟨⟨2024, 6, 1⟩, some 9, none, 1, some 101, none, none, none⟩])
        ["NO_SUCH_CODE"] ⟨2020, 1, 1⟩ ⟨2030, 1, 1⟩ [101] [] none none = [] ∧
     get_summary_data
        (withObservations exDb
          [⟨⟨2024, 6, 1⟩, some 9, none, 1, some 101, none, none, none⟩])
        ["NO_SUCH_CODE"] ⟨2020, 1, 1⟩ ⟨2030, 1, 1⟩ [101] [] "Median" =
       Except.ok []) :=
  ⟨by decide,
   unresolved_codes_short_circuit exDb ["NO_SUCH_CODE"] ⟨2020, 1, 1⟩
     ⟨2030, 1, 1⟩ [101] [] none none "Median"
     [⟨⟨2024, 6, 1⟩, some 9, none, 1, some 101, none, none, none⟩]
     (by decide)⟩

theorem locationCondition_or {ru infra : List Nat} (hru : ru ≠ [])
    (hinf : infra ≠ []) (t : IndicatorTimeseries) :
    locationCondition ru infra t = (ruMatchB ru t || infraMatchB infra t) := by
  have h1 : ru.isEmpty = false := by
    cases ru with
    | nil => exact absurd rfl hru
    | cons x xs => rfl
  have h2 : infra.isEmpty = false := by
    cases infra with
    | nil => exact absurd rfl hinf
    | cons x xs => rfl
  simp [locationCondition, locationFilters, h1, h2]

/-- C2: in a `get_timeseries_data` call in which both the reporting-unit id
set and the infrastructure id set are non-empty, an observation row is in the
(raw) result exactly when it satisfies the indicator, window, and
source-resolution conditions AND its reporting-unit id is in the supplied
reporting-unit set OR its infrastructure id is in the supplied infrastructure
set: a logical OR across the two location kinds, never an AND. -/
theorem timeseries_location_or_rule (db : Database) (codes : List String)
    (s e : Timestamp) (ru infra : List Nat) (trName : Option String)
    (r : Record) (hru : ru ≠ []) (hinf : infra ≠ []) :
    r ∈ get_timeseries_data db codes s e ru infra trName none ↔
      ∃ j ∈ joinedRows db, r = rawRecord j ∧
        (resolveIndicatorIds db codes).contains j.ts.indicator_definition_id
          = true ∧
        j.ts.timestamp.betweenB s e = true ∧
        trCondition trName j = true ∧
        (ruMatchB ru j.ts = true ∨ infraMatchB infra j.ts = true) := by
  by_cases hids : (resolveIndicatorIds db codes).isEmpty
  · simp only [get_timeseries_data, hids, if_true]
    constructor
    · intro h
      exact absurd h (List.not_mem_nil r)
    · rintro ⟨j, _, _, hcont, _⟩
      rw [List.isEmpty_iff.mp hids] at hcont
      simp at hcont
  · simp only [get_timeseries_data, hids, Bool.false_eq_true, if_false,
      rawPlan]
    constructor
    · intro h
      obtain ⟨j, hj, rfl⟩ := List.mem_map.mp h
      have hj2 := (mem_sortBy _ _ _).mp hj
      have hf := List.mem_filter.mp hj2
      refine ⟨j, hf.1, rfl, ?_⟩
      have hc := hf.2
      simp only [rowConditions, Bool.and_eq_true] at hc
      obtain ⟨⟨⟨hid, hbet⟩, hloccond⟩, htr⟩ := hc
      rw [locationCondition_or hru hinf] at hloccond
      exact ⟨hid, hbet, htr, by simpa using hloccond⟩
    · rintro ⟨j, hjr, rfl, hid, hbet, htr, hlocor⟩
      apply List.mem_map.mpr
      refine ⟨j, (mem_sortBy _ _ _).mpr (List.mem_filter.mpr ⟨hjr, ?_⟩), rfl⟩
      simp only [rowConditions, Bool.and_eq_true]
      refine ⟨⟨⟨hid, hbet⟩, ?_⟩, htr⟩
      rw [locationCondition_or hru hinf]
      simpa using hlocor

/-- Witness for C2: with both id sets supplied, the observation attributed
only to infrastructure 501 is included (via the infrastructure side of the
OR). -/
theorem timeseries_location_or_rule_witness :
    (([101] : List Nat) ≠ [] ∧ ([501] : List Nat) ≠ []) ∧
    rawRecord
        ⟨⟨⟨2023, 1, 20⟩, some 7, none, 1, none, some 501, none, none⟩,
         ⟨1, "Q_RIVER", "River Discharge", some 10⟩, some ⟨10, "m3/s"⟩,
         none, some ⟨501, "Dam X"⟩, none, none⟩ ∈
      get_timeseries_data exDbMixed ["Q_RIVER"] ⟨2023, 1, 1⟩ ⟨2023, 1, 31⟩
        [101] [501] none none :=
  ⟨⟨by decide, by decide⟩,
   (timeseries_location_or_rule exDbMixed ["Q_RIVER"] ⟨2023, 1, 1⟩
       ⟨2023, 1, 31⟩ [101] [501] none _ (by decide) (by decide)).mpr
     ⟨⟨⟨⟨2023, 1, 20⟩, some 7, none, 1, none, some 501, none, none⟩,
       ⟨1, "Q_RIVER", "River Discharge", some 10⟩, some ⟨10, "m3/s"⟩,
       none, some ⟨501, "Dam X"⟩, none, none⟩,
      by decide, rfl, by decide, by decide, by decide,
      Or.inr (by decide)⟩⟩

theorem rawLe_total (a b : JoinedRow) : rawLe a b = true ∨ rawLe b a = true := by
  rw [rawLe, rawLe]
  by_cases h : a.ts.timestamp = b.ts.timestamp
  · rw [if_pos h, if_pos h.symm]
    rcases le_total a.ind.code b.ind.code with hc | hc
    · exact Or.inl (decide_eq_true hc)
    · exact Or.inr (decide_eq_true hc)
  · rw [if_neg h, if_neg fun he => h he.symm]
    exact Timestamp.leb_total _ _

theorem aggLe_total (a b : AggKey) : aggLe a b = true ∨ aggLe b a = true := by
  rw [aggLe, aggLe]
  by_cases h : a.bucket = b.bucket
  · rw [if_pos h, if_pos h.symm]
    rcases le_total a.code b.code with hc | hc
    · exact Or.inl (decide_eq_true hc)
    · exact Or.inr (decide_eq_true hc)
  · rw [if_neg h, if_neg fun he => h he.symm]
    exact Timestamp.leb_total _ _

theorem recordOrderLe_raw (a b : JoinedRow) :
    recordOrderLe (rawRecord a) (rawRecord b) = rawLe a b := rfl

theorem recordOrderLe_agg (trunc : Timestamp → Timestamp)
    (rows : List JoinedRow) (g : String) (a b : AggKey) :
    recordOrderLe (aggRecordOf trunc rows g a) (aggRecordOf trunc rows g b) =
      aggLe a b := rfl

/-- C8: for every call with a valid window (start at or before end) and at
least one resolvable indicator code, the `get_timeseries_data` result —
whether raw or aggregated — is sorted non-decreasing by its timestamp field
(the observation timestamp for the raw plan, the bucket start for the
aggregated plan) with the indicator code as the secondary key. -/
theorem timeseries_result_sorted (db : Database) (codes : List String)
    (s e : Timestamp) (ru infra : List Nat) (trName : Option String)
    (agg : Option String) (hwin : s.leb e = true)
    (hres : resolveIndicatorIds db codes ≠ []) :
    List.Chain' (fun r1 r2 => recordOrderLe r1 r2 = true)
      (get_timeseries_data db codes s e ru infra trName agg) := by
  have hids : (resolveIndicatorIds db codes).isEmpty = false := by
    cases hc : resolveIndicatorIds db codes with
    | nil => exact absurd hc hres
    | cons x xs => rfl
  have hraw : ∀ rows : List JoinedRow,
      List.Chain' (fun r1 r2 => recordOrderLe r1 r2 = true)
        (rawPlan rows) := by
    intro rows
    rw [rawPlan]
    apply (List.chain'_map _).mpr
    exact List.Chain'.imp
      (fun a b h => by rw [recordOrderLe_raw]; exact h)
      (chain'_sortBy rawLe rawLe_total rows)
  have hagg : ∀ (trunc : Timestamp → Timestamp) (rows : List JoinedRow)
      (g0 : String),
      List.Chain' (fun r1 r2 => recordOrderLe r1 r2 = true)
        (aggregatedPlan trunc rows g0) := by
    intro trunc rows g0
    rw [aggregatedPlan]
    apply (List.chain'_map _).mpr
    exact List.Chain'.imp
      (fun a b h => by rw [recordOrderLe_agg]; exact h)
      (chain'_sortBy aggLe aggLe_total _)
  simp only [get_timeseries_data, hids, Bool.false_eq_true, if_false]
  cases agg with
  | none => exact hraw _
  | some g =>
    by_cases h1 : g.isEmpty = true
    · simp only [h1, if_true]
      exact hraw _
    · simp only [h1, if_false]
      by_cases h2 : (pyLower g == "monthly") = true
      · simp only [h2, if_true]
        exact hagg _ _ _
      · simp only [h2, if_false]
        by_cases h3 : (pyLower g == "annual") = true
        · simp only [h3, if_true]
          exact hagg _ _ _
        · simp only [h3, if_false]
          exact hraw _

/-- Witness for C8: the scenario call has a valid window and a resolvable
code, and its result is sorted. -/
theorem timeseries_result_sorted_witness :
    Timestamp.leb ⟨2023, 1, 1⟩ ⟨2023, 1, 31⟩ = true ∧
    resolveIndicatorIds exDb ["Q_RIVER"] ≠ [] ∧
    List.Chain' (fun r1 r2 => recordOrderLe r1 r2 = true)
      (get_timeseries_data exDb ["Q_RIVER"] ⟨2023, 1, 1⟩ ⟨2023, 1, 31⟩ [101]
        [] none none) :=
  ⟨by decide, by decide,
   timeseries_result_sorted exDb ["Q_RIVER"] ⟨2023, 1, 1⟩ ⟨2023, 1, 31⟩ [101]
     [] none none (by decide) (by decide)⟩

/-- C9: when all matching observation rows of a store fall into a single
Monthly aggregation group — one indicator at one location, all timestamps in
one calendar month — the Monthly call returns exactly one record whose
timestamp is the first day of that month and whose value is the average of
exactly those observations' numeric values. -/
theorem monthly_single_bucket (db : Database) (codes : List String)
    (s e : Timestamp) (ru infra : List Nat) (trName : Option String)
    (j0 : JoinedRow)
    (h0 : j0 ∈ timeseriesFilteredRows db codes s e ru infra trName)
    (hsame : ∀ j1 ∈ timeseriesFilteredRows db codes s e ru infra trName,
      ∀ j2 ∈ timeseriesFilteredRows db codes s e ru infra trName,
      aggKeyOf Timestamp.truncMonth j1 = aggKeyOf Timestamp.truncMonth j2) :
    get_timeseries_data db codes s e ru infra trName (some "Monthly") =
      [[("timestamp", Value.ts (Timestamp.truncMonth j0.ts.timestamp)),
        ("value", Value.num (sqlAvg
          ((timeseriesFilteredRows db codes s e ru infra trName).map
            (·.ts.value_numeric)))),
        ("indicator_code", Value.str (some j0.ind.code)),
        ("indicator_name", Value.str (some j0.ind.name_en)),
        ("unit", Value.str (j0.uom.map (·.abbreviation))),
        ("reporting_unit_name", Value.str (j0.ru.map (·.name))),
        ("infrastructure_name", Value.str (j0.infra.map (·.name))),
        ("aggregation_level", Value.str (some "Monthly"))]] := by
  have hall : ∀ j ∈ timeseriesFilteredRows db codes s e ru infra trName,
      aggKeyOf Timestamp.truncMonth j = aggKeyOf Timestamp.truncMonth j0 :=
    fun j hj => hsame j hj j0 h0
  have hid : (resolveIndicatorIds db codes).contains
      j0.ts.indicator_definition_id = true := by
    have hc := (List.mem_filter.mp h0).2
    simp only [rowConditions, Bool.and_eq_true] at hc
    exact hc.1.1.1
  have hids : (resolveIndicatorIds db codes).isEmpty = false := by
    cases hc : resolveIndicatorIds db codes with
    | nil =>
      rw [hc] at hid
      simp at hid
    | cons x xs => rfl
  have e1 : ("Monthly" : String).isEmpty = false := rfl
  have e2 : (pyLower "Monthly" == "monthly") = true := by decide
  have hrows : (joinedRows db).filter
      (rowConditions (resolveIndicatorIds db codes) s e ru infra trName) =
      timeseriesFilteredRows db codes s e ru infra trName := rfl
  simp only [get_timeseries_data, hids, Bool.false_eq_true, if_false, e1, e2,
    if_true]
  rw [hrows, aggregatedPlan]
  have hmapne : (timeseriesFilteredRows db codes s e ru infra trName).map
      (aggKeyOf Timestamp.truncMonth) ≠ [] := by
    intro h
    rw [List.map_eq_nil_iff.mp h] at h0
    exact List.not_mem_nil j0 h0
  have hconstm : ∀ x ∈ (timeseriesFilteredRows db codes s e ru infra
      trName).map (aggKeyOf Timestamp.truncMonth),
      x = aggKeyOf Timestamp.truncMonth j0 := by
    intro x hx
    obtain ⟨j, hj, rfl⟩ := List.mem_map.mp hx
    exact hall j hj
  rw [dedupKeys_const _ _ hmapne hconstm]
  have hsort : sortBy aggLe [aggKeyOf Timestamp.truncMonth j0] =
      [aggKeyOf Timestamp.truncMonth j0] := rfl
  rw [hsort, List.map_singleton, aggRecordOf]
  have hfil : (timeseriesFilteredRows db codes s e ru infra trName).filter
      (fun j => aggKeyOf Timestamp.truncMonth j ==
        aggKeyOf Timestamp.truncMonth j0) =
      timeseriesFilteredRows db codes s e ru infra trName := by
    apply List.filter_eq_self.mpr
    intro j hj
    simp [hall j hj]
  rw [hfil]
  simp [aggKeyOf]

/-- Witness for C9: observations of 50, 100, 150 on Jan 15/16/17 of 2023, all
under reporting unit 101, aggregated Monthly, give exactly one record with
value 100 and timestamp 2023-01-01. -/
theorem monthly_single_bucket_witness :
    (⟨⟨⟨2023, 1, 15⟩, some 50, none, 1, some 101, none, some 7, some 3⟩,
      ⟨1, "Q_RIVER", "River Discharge", some 10⟩, some ⟨10, "m3/s"⟩,
      some ⟨101, "Basin A"⟩, none, some ⟨7, "Daily"⟩, some ⟨3, "Measured"⟩⟩ ∈
      timeseriesFilteredRows exDb ["Q_RIVER"] ⟨2023, 1, 1⟩ ⟨2023, 1, 31⟩
        [101] [] none) ∧
    get_timeseries_data exDb ["Q_RIVER"] ⟨2023, 1, 1⟩ ⟨2023, 1, 31⟩ [101] []
        none (some "Monthly") =
      [[("timestamp", Value.ts ⟨2023, 1, 1⟩),
        ("value", Value.num (some 100)),
        ("indicator_code", Value.str (some "Q_RIVER")),
        ("indicator_name", Value.str (some "River Discharge")),
        ("unit", Value.str (some "m3/s")),
        ("reporting_unit_name", Value.str (some "Basin A")),
        ("infrastructure_name", Value.str none),
        ("aggregation_level", Value.str (some "Monthly"))]] :=
  ⟨by decide,
   (monthly_single_bucket exDb ["Q_RIVER"] ⟨2023, 1, 1⟩ ⟨2023, 1, 31⟩ [101]
       [] none
       ⟨⟨⟨2023, 1, 15⟩, some 50, none, 1, some 101, none, some 7, some 3⟩,
        ⟨1, "Q_RIVER", "River Discharge", some 10⟩, some ⟨10, "m3/s"⟩,
        some ⟨101, "Basin A"⟩, none, some ⟨7, "Daily"⟩, some ⟨3, "Measured"⟩⟩
       (by decide) (by decide)).trans (by decide)⟩

theorem ratAdd_eq_add (a b : Rat) : ratAdd a b = a + b :=
  (Rat.add_def' a b).symm

theorem ratSum_eq_sum (l : List Rat) : ratSum l = l.sum := by
  induction l with
  | nil => rfl
  | cons x xs ih =>
    rw [ratSum, List.foldr_cons, List.sum_cons, ratAdd_eq_add]
    rw [ratSum] at ih
    rw [ih]

theorem ratDivNat_eq_div (a : Rat) (n : Nat) :
    ratDivNat a n = a / (n : Rat) := by
  rw [ratDivNat, Rat.mkRat_eq_div]
  push_cast
  rw [div_mul_eq_div_div, Rat.num_div_den]

theorem sqlAvg_eq_sum_div_length (vs : List (Option Rat)) :
    sqlAvg vs = if (vs.filterMap id).isEmpty then none
      else some ((vs.filterMap id).sum / ((vs.filterMap id).length : Rat)) := by
  rw [sqlAvg, ratDivNat_eq_div, ratSum_eq_sum]

/-- Counterexample for C3: with reporting_unit_ids = [101] and
infrastructure_ids = [501] supplied together and the only observation
attributed to infrastructure 501 (matching the supplied set, inside the
window, with a resolvable code), `get_summary_data` returns the empty
result: the infrastructure-attributed observation is not included, so the
claimed OR rule fails for the summary path. -/
theorem summary_location_or_counterexample :
    (⟨⟨2023, 1, 15⟩, some 42, none, 1, none, some 501, none, none⟩ :
        IndicatorTimeseries) ∈ exDbInfra.indicator_timeseries ∧
    infraMatchB [501]
      ⟨⟨2023, 1, 15⟩, some 42, none, 1, none, some 501, none, none⟩ = true ∧
    Timestamp.betweenB ⟨2023, 1, 15⟩ ⟨2023, 1, 1⟩ ⟨2023, 1, 31⟩ = true ∧
    resolveIndicatorIds exDbInfra ["Q_RIVER"] = [1] ∧
    get_summary_data exDbInfra ["Q_RIVER"] ⟨2023, 1, 1⟩ ⟨2023, 1, 31⟩ [101]
      [501] "Average" = Except.ok [] :=
  ⟨by decide, by decide, by decide, by decide, by with_unfolding_all rfl⟩

/-- C3 amended: when both a non-empty reporting-unit id set and a non-empty
infrastructure id set are supplied, `get_summary_data` ignores the
infrastructure set entirely (the `if ... elif ...` chain joins and filters on
reporting units only): the call equals the one without infrastructure ids,
so infrastructure-only observations are excluded, not OR-included. -/
theorem summary_ignores_infrastructure_when_both (db : Database)
    (codes : List String) (s e : Timestamp) (ru infra : List Nat)
    (m : String) (hru : ru ≠ []) :
    get_summary_data db codes s e ru infra m =
      get_summary_data db codes s e ru [] m := by
  have h1 : ru.isEmpty = false := by
    cases ru with
    | nil => exact absurd rfl hru
    | cons x xs => rfl
  have hcond : summaryConditions (resolveIndicatorIds db codes) s e ru infra =
      summaryConditions (resolveIndicatorIds db codes) s e ru [] := by
    funext r
    simp [summaryConditions, h1]
  simp [get_summary_data, executeSummary, summaryJoinedRows, h1, hcond]

/-- Witness for C3 amended: on the mixed store, the summary with both sets
equals the summary with reporting units only. -/
theorem summary_ignores_infrastructure_when_both_witness :
    ([101] : List Nat) ≠ [] ∧
    get_summary_data exDbMixed ["Q_RIVER"] ⟨2023, 1, 1⟩ ⟨2023, 1, 31⟩ [101]
        [501] "Average" =
      get_summary_data exDbMixed ["Q_RIVER"] ⟨2023, 1, 1⟩ ⟨2023, 1, 31⟩ [101]
        [] "Average" :=
  ⟨by decide,
   summary_ignores_infrastructure_when_both exDbMixed ["Q_RIVER"]
     ⟨2023, 1, 1⟩ ⟨2023, 1, 31⟩ [101] [501] "Average" (by decide)⟩

/-- Counterexample for C4: `LatestValue` is not in the enumerated set
{Average, Sum, Min, Max, Count}, yet a `get_summary_data` call with a
resolvable code does not raise the invalid-request `ValueError` for it: the
string-keyed method map also contains `LatestValue`, which passes dispatch
and fails in the store instead (a server-side error, not a request error). -/
theorem summary_method_validation_counterexample :
    ("LatestValue" ∉ ["Average", "Sum", "Min", "Max", "Count"]) ∧
    isValueError (get_summary_data exDb ["Q_RIVER"] ⟨2023, 1, 1⟩
      ⟨2023, 1, 31⟩ [101] [] "LatestValue") = false ∧
    get_summary_data exDb ["Q_RIVER"] ⟨2023, 1, 1⟩ ⟨2023, 1, 31⟩ [101] []
        "LatestValue" =
      Except.error (QueryError.storeError
        "window function last_value requires an OVER clause") :=
  ⟨by decide, by with_unfolding_all rfl, by with_unfolding_all rfl⟩

/-- C4 amended: provided at least one indicator code resolves (otherwise the
method is never inspected and `[]` is returned), `get_summary_data` raises
the invalid-request `ValueError` exactly when the method name is outside the
six keys of `agg_func_map` — the enumerated set {Average, Sum, Min, Max,
Count} plus `LatestValue`. In particular `Median` raises it. -/
theorem summary_method_validation (db : Database) (codes : List String)
    (s e : Timestamp) (ru infra : List Nat) (m : String)
    (hres : resolveIndicatorIds db codes ≠ []) :
    isValueError (get_summary_data db codes s e ru infra m) = true ↔
      m ∉ ["Average", "Sum", "Min", "Max", "Count", "LatestValue"] := by
  have hids : (resolveIndicatorIds db codes).isEmpty = false := by
    cases hc : resolveIndicatorIds db codes with
    | nil => exact absurd hc hres
    | cons x xs => rfl
  simp only [get_summary_data, hids, Bool.false_eq_true, if_false]
  cases hl : agg_func_map.lookup m with
  | none =>
    have hnm : m ∉ ["Average", "Sum", "Min", "Max", "Count",
        "LatestValue"] := by
      intro hm
      simp only [List.mem_cons, List.not_mem_nil, or_false] at hm
      rcases hm with rfl | rfl | rfl | rfl | rfl | rfl <;>
        exact absurd hl (by decide)
    simp [isValueError, hnm]
  | some f =>
    have hmem : m ∈ ["Average", "Sum", "Min", "Max", "Count",
        "LatestValue"] := by
      by_contra hnm
      simp only [List.mem_cons, List.not_mem_nil, or_false, not_or] at hnm
      obtain ⟨n1, n2, n3, n4, n5, n6⟩ := hnm
      rw [agg_func_map] at hl
      simp [List.lookup, beq_eq_false_iff_ne.mpr n1, beq_eq_false_iff_ne.mpr n2,
        beq_eq_false_iff_ne.mpr n3, beq_eq_false_iff_ne.mpr n4,
        beq_eq_false_iff_ne.mpr n5, beq_eq_false_iff_ne.mpr n6] at hl
    have hexec : isValueError (executeSummary db
        (resolveIndicatorIds db codes) s e ru infra f) = false := by
      rw [executeSummary]
      by_cases h : f = AggFunc.last_value
      · simp [h, isValueError]
      · simp [h, isValueError]
    constructor
    · intro h
      rw [hexec] at h
      exact absurd h (by simp)
    · intro h
      exact absurd hmem h

/-- Witness for C4 amended: on the scenario store (resolvable code),
`Median` is outside the method map and raises the `ValueError`. -/
theorem summary_method_validation_witness :
    resolveIndicatorIds exDb ["Q_RIVER"] ≠ [] ∧
    (isValueError (get_summary_data exDb ["Q_RIVER"] ⟨2023, 1, 1⟩
        ⟨2023, 1, 31⟩ [101] [] "Median") = true ↔
      "Median" ∉ ["Average", "Sum", "Min", "Max", "Count", "LatestValue"]) ∧
    "Median" ∉ ["Average", "Sum", "Min", "Max", "Count", "LatestValue"] :=
  ⟨by decide,
   summary_method_validation exDb ["Q_RIVER"] ⟨2023, 1, 1⟩ ⟨2023, 1, 31⟩
     [101] [] "Median" (by decide),
   by decide⟩

/-- C6 (documenting the code defect at the failing input): a requested
granularity of `Seasonal` is neither bucketed nor rejected — the unfinished
`seasonal` branch leaves the truncation unset and the call silently returns
the raw plan: three per-observation records with their original timestamps,
with the raw-only `value_text` field present and no `aggregation_level`
marker, identical to the call without `aggregate_to`. -/
theorem seasonal_silently_falls_back_to_raw :
    get_timeseries_data exDb ["Q_RIVER"] ⟨2023, 1, 1⟩ ⟨2023, 1, 31⟩ [101] []
        none (some "Seasonal") =
      get_timeseries_data exDb ["Q_RIVER"] ⟨2023, 1, 1⟩ ⟨2023, 1, 31⟩ [101]
        [] none none ∧
    (get_timeseries_data exDb ["Q_RIVER"] ⟨2023, 1, 1⟩ ⟨2023, 1, 31⟩ [101] []
        none (some "Seasonal")).length = 3 ∧
    (∀ r ∈ get_timeseries_data exDb ["Q_RIVER"] ⟨2023, 1, 1⟩ ⟨2023, 1, 31⟩
        [101] [] none (some "Seasonal"),
      r.lookup "aggregation_level" = none ∧ r.lookup "value_text" ≠ none) :=
  ⟨by decide, by decide, by decide⟩

/-- Counterexample for C7: a request whose window start (2023-02-01) is
strictly after its end (2023-01-01) is not rejected: the route handler
executes the query — with matching observations present in the store — and
returns a successful empty result instead of a client-error signal. -/
theorem reversed_window_not_rejected :
    Timestamp.leb ⟨2023, 2, 1⟩ ⟨2023, 1, 1⟩ = false ∧
    exDb.indicator_timeseries ≠ [] ∧
    get_timeseries_data_points exDb ["Q_RIVER"] ⟨2023, 2, 1⟩ ⟨2023, 1, 1⟩
      [101] [] none none = Except.ok [] :=
  ⟨by decide, by decide, by with_unfolding_all rfl⟩

/-- C7 amended: no layer validates the window order. With start strictly
after end, the route handler (given a location set, which is all it checks)
and the summary path (given a method from the enumerated set) execute the
query and return a successful empty result, because the BETWEEN bound is
unsatisfiable; the bound is inclusive at both ends, so under a valid window
an observation timestamped exactly at the start or at the end passes it. -/
theorem reversed_window_returns_empty (db : Database) (codes : List String)
    (s e : Timestamp) (ru infra : List Nat) (trName : Option String)
    (agg : Option String) (m : String) (hwin : s.leb e = false)
    (hloc : ru ≠ [] ∨ infra ≠ [])
    (hm : m ∈ ["Average", "Sum", "Min", "Max", "Count"]) :
    get_timeseries_data_points db codes s e ru infra trName agg =
      Except.ok [] ∧
    get_summary_data db codes s e ru infra m = Except.ok [] ∧
    (∀ s2 e2 : Timestamp, s2.leb e2 = true →
      Timestamp.betweenB s2 s2 e2 = true ∧ Timestamp.betweenB e2 s2 e2 = true) := by
  have hbet : ∀ t : Timestamp, t.betweenB s e = false := by
    intro t
    rw [Timestamp.betweenB]
    cases h1 : s.leb t with
    | false => rfl
    | true =>
      cases h2 : t.leb e with
      | false => rfl
      | true =>
        rw [Timestamp.leb_trans h1 h2] at hwin
        cases hwin
  refine ⟨?_, ?_, ?_⟩
  · have hfilter : (joinedRows db).filter
        (rowConditions (resolveIndicatorIds db codes) s e ru infra trName) =
        [] := by
      apply List.filter_eq_nil_iff.mpr
      intro j _
      simp [rowConditions, hbet j.ts.timestamp]
    have hts : get_timeseries_data db codes s e ru infra trName agg = [] := by
      simp only [get_timeseries_data]
      by_cases hids : (resolveIndicatorIds db codes).isEmpty
      · simp [hids]
      · simp only [hids, Bool.false_eq_true, if_false, hfilter]
        cases agg with
        | none => rfl
        | some g =>
          dsimp only
          split_ifs <;> simp [rawPlan, aggregatedPlan, dedupKeys, sortBy]
    have hlocB : (ru.isEmpty && infra.isEmpty) = false := by
      rcases hloc with h | h
      · cases ru with
        | nil => exact absurd rfl h
        | cons x xs => rfl
      · cases infra with
        | nil => exact absurd rfl h
        | cons x xs => simp
    simp [get_timeseries_data_points, hlocB, hts]
  · have hsfilter : (summaryJoinedRows db ru infra).filter
        (summaryConditions (resolveIndicatorIds db codes) s e ru infra) =
        [] := by
      apply List.filter_eq_nil_iff.mpr
      intro r _
      simp [summaryConditions, hbet r.ts.timestamp]
    have hf : ∃ f, agg_func_map.lookup m = some f ∧
        f ≠ AggFunc.last_value := by
      simp only [List.mem_cons, List.not_mem_nil, or_false] at hm
      rcases hm with rfl | rfl | rfl | rfl | rfl
      · exact ⟨AggFunc.avg, by decide, by decide⟩
      · exact ⟨AggFunc.sum, by decide, by decide⟩
      · exact ⟨AggFunc.min, by decide, by decide⟩
      · exact ⟨AggFunc.max, by decide, by decide⟩
      · exact ⟨AggFunc.count, by decide, by decide⟩
    obtain ⟨f, hfl, hfne⟩ := hf
    simp only [get_summary_data]
    by_cases hids : (resolveIndicatorIds db codes).isEmpty
    · simp [hids]
    · simp only [hids, Bool.false_eq_true, if_false, hfl]
      rw [executeSummary, if_neg hfne]
      simp [hsfilter, dedupKeys, sortBy]
  · intro s2 e2 h
    constructor
    · simp [Timestamp.betweenB, Timestamp.leb_refl, h]
    · simp [Timestamp.betweenB, Timestamp.leb_refl, h]

/-- Witness for C7 amended: the reversed window 2023-02-01..2023-01-01 on the
scenario store returns successful empty results on both paths. -/
theorem reversed_window_returns_empty_witness :
    Timestamp.leb ⟨2023, 2, 1⟩ ⟨2023, 1, 1⟩ = false ∧
    (get_timeseries_data_points exDb ["Q_RIVER"] ⟨2023, 2, 1⟩ ⟨2023, 1, 1⟩
        [101] [] none none = Except.ok [] ∧
     get_summary_data exDb ["Q_RIVER"] ⟨2023, 2, 1⟩ ⟨2023, 1, 1⟩ [101] []
        "Average" = Except.ok [] ∧
     (∀ s2 e2 : Timestamp, s2.leb e2 = true →
       Timestamp.betweenB s2 s2 e2 = true ∧
       Timestamp.betweenB e2 s2 e2 = true)) :=
  ⟨by decide,
   reversed_window_returns_empty exDb ["Q_RIVER"] ⟨2023, 2, 1⟩ ⟨2023, 1, 1⟩
     [101] [] none none "Average" (by decide) (Or.inl (by decide))
     (by decide)⟩
